import Mathlib

/-!
Shallow embedding of the_synapsys verifier core in Lean 4.

Each definition translates one function of the TypeScript source
(`the_synapsys-verifier/src/...`); structures mirror the exported
interfaces.  Asynchronous database / network calls are modelled as
explicit state passing (the session store and audit table become lists
of rows; one SQL statement becomes one pure transition) or as
parameters holding the awaited result of the external call.  JavaScript
`Date` values are epoch milliseconds (`Int`); `undefined` becomes
`Option`.
-/

namespace Synapsys

/-- Semantic kinds of a JSON claim value (claim maps are open maps from
string keys to these). -/
inductive ClaimValue where
  | str (s : String)
  | num (n : Int)
  | boolVal (b : Bool)
  | nullVal
  deriving DecidableEq, Repr

/-- JavaScript truthiness of a claim value (`if (v)`): `false`, `null`,
`0` and `""` are falsy. -/
def ClaimValue.truthy : ClaimValue → Bool
  | .str s => !s.isEmpty
  | .num n => n ≠ 0
  | .boolVal b => b
  | .nullVal => false

/-- Property read `obj[key]` on a JSON object modelled as an association
list: first entry with the key (JS objects hold each key once). -/
def lookupClaim (claims : List (String × ClaimValue)) (k : String) : Option ClaimValue :=
  (claims.find? (fun p => p.1 = k)).map (fun p => p.2)

/-- `a || b` on two optional strings, with the empty string falsy
(JS `||` chain used for issuer extraction). -/
def jsOrStr (a b : Option String) : Option String :=
  match a with
  | some s => if s.isEmpty then b else some s
  | none => b

/-- Digits to their base-10 value. -/
def digitsToNat (cs : List Char) : Nat :=
  cs.foldl (fun a c => a * 10 + (c.toNat - ('0').toNat)) 0

/-- `parseInt(s, 10)` restricted to the shapes that occur here: the
maximal leading run of ASCII digits, `none` for `NaN`. -/
def parseLeadingNat (s : String) : Option Nat :=
  let ds := s.toList.takeWhile Char.isDigit
  if ds.isEmpty then none else some (digitsToNat ds)

/-- `s.startsWith(pre)` on the character lists. -/
def strStartsWith (s pre : String) : Bool :=
  pre.toList.isPrefixOf s.toList

/-- `s.substring(n)` (drop the first `n` characters). -/
def strDrop (s : String) (n : Nat) : String :=
  String.mk (s.toList.drop n)

/-- `s.split(sep)` on the character lists. -/
def splitChar (p : Char → Bool) : List Char → List (List Char)
  | [] => [[]]
  | c :: rest =>
    if p c then [] :: splitChar p rest
    else
      match splitChar p rest with
      | g :: gs => (c :: g) :: gs
      | [] => [[c]]

/-- `toNat?` / `parseInt` on a full chunk: all characters must be
digits and the chunk nonempty. -/
def chunkToNat? (cs : List Char) : Option Nat :=
  if !cs.isEmpty && cs.all Char.isDigit then some (digitsToNat cs) else none

/-! ## Presentation matcher (`src/lib/presentationDefinition.ts`) -/

namespace PD

/-- One entry of `constraints.fields` (`optional?: boolean`). -/
structure FieldConstraint where
  optional : Option Bool
  deriving DecidableEq, Repr

/-- `InputDescriptor`: id plus `constraints.fields?` (the other fields
play no role in evaluation). -/
structure InputDescriptor where
  id : String
  fields : Option (List FieldConstraint)
  deriving DecidableEq, Repr

/-- `PresentationDefinition` (id + ordered descriptors). -/
structure PresentationDefinition where
  id : String
  input_descriptors : List InputDescriptor
  deriving DecidableEq, Repr

/-- One `descriptor_map` entry of a `PresentationSubmission`. -/
structure DescriptorMapEntry where
  id : String
  format : String
  path : String
  deriving DecidableEq, Repr

/-- `PresentationSubmission`. -/
structure PresentationSubmission where
  id : String
  definition_id : String
  descriptor_map : List DescriptorMapEntry
  deriving DecidableEq, Repr

/-- A decoded credential inside the presentation; evaluation only tests
its existence at an array index. -/
structure VerifiableCredential where
  claims : List (String × ClaimValue)
  deriving DecidableEq, Repr

/-- `VerifiablePresentation` as evaluation sees it:
`presentation_submission?` and the credential array
(`vp.verifiable_credential || vp.verifiableCredential || []`). -/
structure VerifiablePresentation where
  presentation_submission : Option PresentationSubmission
  credentials : List VerifiableCredential
  deriving DecidableEq, Repr

/-- First regex match of `/\[(\d+)\]/` over the characters: a bracketed
nonempty digit run. -/
def findBracketIndex : List Char → Option Nat
  | [] => none
  | c :: rest =>
    if c = '[' then
      let ds := rest.takeWhile Char.isDigit
      if ds.isEmpty then findBracketIndex rest
      else match rest.drop ds.length with
        | ']' :: _ => some (digitsToNat ds)
        | _ => findBracketIndex rest
    else findBracketIndex rest

/-- `extractIndexFromPath`: first `[N]` group, `-1` when the regex does
not match. -/
def extractIndexFromPath (path : String) : Int :=
  match findBracketIndex path.toList with
  | some n => (n : Int)
  | none => -1

/-- `descriptor.constraints.fields?.some((f) => f.optional)` as a
boolean: `undefined` (`fields` absent) is falsy. -/
def someFieldOptional (fields : Option (List FieldConstraint)) : Bool :=
  match fields with
  | none => false
  | some l => l.any (fun f => f.optional.getD false)

/-- `descriptor.constraints.fields?.every((f) => f.optional)` as a
boolean: `undefined` (`fields` absent) is falsy, an empty list gives
`true`. -/
def everyFieldOptionalJS (fields : Option (List FieldConstraint)) : Bool :=
  match fields with
  | none => false
  | some l => l.all (fun f => f.optional.getD false)

/-- `!credentials[i]` guard of the mapping branch:
the mapped index misses when it is `-1` or out of range. -/
def credentialMissing (credentials : List VerifiableCredential) (i : Int) : Bool :=
  i = -1 || credentials.length ≤ i.toNat

/-- The per-descriptor loop of `evaluatePresentationSubmission`,
returning the pushed error messages and matched descriptor ids in
source order. -/
def evalDescriptors (descriptorMap : List DescriptorMapEntry)
    (credentials : List VerifiableCredential) :
    List InputDescriptor → List String × List String
  | [] => ([], [])
  | descriptor :: rest =>
    match descriptorMap.find? (fun m => m.id = descriptor.id) with
    | none =>
      if someFieldOptional descriptor.fields then
        evalDescriptors descriptorMap credentials rest
      else (("No mapping found for required descriptor: " ++ descriptor.id) ::
              (evalDescriptors descriptorMap credentials rest).1,
            (evalDescriptors descriptorMap credentials rest).2)
    | some mapping =>
      if credentialMissing credentials (extractIndexFromPath mapping.path) then
        (("Credential not found at path " ++ mapping.path ++ " for descriptor "
            ++ descriptor.id) :: (evalDescriptors descriptorMap credentials rest).1,
         (evalDescriptors descriptorMap credentials rest).2)
      else ((evalDescriptors descriptorMap credentials rest).1,
            descriptor.id :: (evalDescriptors descriptorMap credentials rest).2)

/-- Result record of `evaluatePresentationSubmission` (`errors?` is
omitted in TS when empty; here the list is kept, empty meaning
absent). -/
structure EvalResult where
  valid : Bool
  errors : List String
  matchedDescriptors : List String
  deriving DecidableEq, Repr

/-- `requiredDescriptors` of the source: descriptors whose fields are
not all optional (`!d.constraints.fields?.every((f) => f.optional)`). -/
def requiredDescriptors (pd : PresentationDefinition) : List InputDescriptor :=
  pd.input_descriptors.filter (fun d => !everyFieldOptionalJS d.fields)

/-- `evaluatePresentationSubmission(vp, pd)`. -/
def evaluatePresentationSubmission (vp : VerifiablePresentation)
    (pd : PresentationDefinition) : EvalResult :=
  match vp.presentation_submission with
  | none => ⟨false, ["Missing presentation_submission in VP"], []⟩
  | some submission =>
    if submission.definition_id ≠ pd.id then
      ⟨false, ["Definition ID mismatch: expected " ++ pd.id ++ ", got "
          ++ submission.definition_id], []⟩
    else
      let credentials := vp.credentials
      let step := evalDescriptors submission.descriptor_map credentials pd.input_descriptors
      let matched := step.2
      let allRequiredMatched :=
        (requiredDescriptors pd).all (fun d => matched.contains d.id)
      let errors :=
        if allRequiredMatched then step.1
        else step.1 ++ ["Not all required descriptors are satisfied"]
      if errors.isEmpty then ⟨true, [], matched⟩
      else ⟨false, errors, matched⟩

end PD

/-! ## Session state machine (`src/services/sessionService.ts`)

The `vp_sessions` table is a list of rows; one SQL statement is one
pure transition on it. -/

namespace Session

inductive SessionStatus where
  | pending
  | completed
  | expired
  | failed
  deriving DecidableEq, Repr

/-- A `vp_sessions` row (`VPSession`); times are epoch milliseconds. -/
structure VPSession where
  id : String
  state : String
  nonce : String
  expires_at : Int
  status : SessionStatus
  vp_token : Option String
  presentation_submission : Option String
  completed_at : Option Int
  deriving DecidableEq, Repr

/-- The session store (the `vp_sessions` table). -/
abbrev Store := List VPSession

/-- `updateSessionStatus`: `UPDATE vp_sessions SET status = $1 WHERE id
= $2`; returns the new table and `rowCount > 0`. -/
def updateSessionStatus (store : Store) (sessionId : String)
    (status : SessionStatus) : Store × Bool :=
  (store.map (fun s => if s.id = sessionId then { s with status := status } else s),
   store.countP (fun s => s.id = sessionId) > 0)

/-- `completeVPSession`: the single conditional
`UPDATE ... SET vp_token, presentation_submission, status='completed',
completed_at WHERE id = $3 AND status = 'pending'`; succeeds
(`rowCount > 0`) iff a pending row with the id existed, and only such
rows change. -/
def completeVPSession (store : Store) (sessionId vpToken : String)
    (submission : String) (now : Int) : Store × Bool :=
  let hit := fun (s : VPSession) => s.id = sessionId ∧ s.status = .pending
  (store.map (fun s =>
      if s.id = sessionId ∧ s.status = .pending then
        { s with vp_token := some vpToken,
                 presentation_submission := some submission,
                 status := .completed,
                 completed_at := some now }
      else s),
   store.countP (fun s => hit s) > 0)

/-- `getVPSessionByState`: `SELECT * FROM vp_sessions WHERE state = $1`
takes the first matching row; when it is `pending` and `now >
expires_at` the read updates the row to `expired` and reports
`expired`. -/
def getVPSessionByState (store : Store) (state : String) (now : Int) :
    Option VPSession × Store :=
  match store.find? (fun s => s.state = state) with
  | none => (none, store)
  | some session =>
    if session.status = .pending ∧ now > session.expires_at then
      ((some { session with status := .expired }),
       (updateSessionStatus store session.id .expired).1)
    else (some session, store)

/-- Serialization of `n` concurrent `completeVPSession` calls on one
session id: the database applies the conditional updates in some
order, so a run is the fold of the attempts (each a token/submission
pair) through the store.  Returns the final store and the list of
boolean outcomes. -/
def runCompletionAttempts (store : Store) (sessionId : String) (now : Int) :
    List (String × String) → Store × List Bool
  | [] => (store, [])
  | (tok, sub) :: rest =>
    let step := completeVPSession store sessionId tok sub now
    let tail := runCompletionAttempts step.1 sessionId now rest
    (tail.1, step.2 :: tail.2)

end Session

/-! ## Trust resolver (`src/services/TrustResolver.ts`, concatenated
into `sessionService.ts`) -/

namespace Trust

inductive AnchorStatus where
  | active
  | suspended
  | revoked
  deriving DecidableEq, Repr

/-- `TrustAnchor` (validity bounds in epoch milliseconds). -/
structure TrustAnchor where
  did : String
  name : String
  status : AnchorStatus
  validFrom : Int
  validUntil : Option Int
  deriving DecidableEq, Repr

/-- One `trustAnchorCache` entry. -/
structure CacheEntry where
  anchor : TrustAnchor
  timestamp : Int
  deriving DecidableEq, Repr

/-- Mutable module state: the `trustAnchorCache` map and the configured
anchor list (`MOCK_TRUST_ANCHORS`). -/
structure TrustState where
  trustAnchorCache : List (String × CacheEntry)
  mockAnchors : List TrustAnchor
  deriving DecidableEq, Repr

/-- `TrustResolverConfig` fields used by `isTrustedIssuer`. -/
structure TrustResolverConfig where
  enableMockTrustAnchors : Bool
  cacheTTL : Option Int
  deriving DecidableEq, Repr

/-- Result of `isTrustedIssuer`. -/
structure TrustCheckResult where
  trusted : Bool
  anchor : Option TrustAnchor
  reason : Option String
  deriving DecidableEq, Repr

/-- `DEFAULT_CACHE_TTL` (seconds). -/
def DEFAULT_CACHE_TTL : Int := 3600

/-- The anchor validity test the source repeats:
`status === 'active' && (!validUntil || validUntil > new Date())`. -/
def anchorIsValid (anchor : TrustAnchor) (now : Int) : Bool :=
  decide (anchor.status = AnchorStatus.active) &&
    (anchor.validUntil.elim true (fun u => decide (now < u)))

/-- The fall-through of `isTrustedIssuer` after a cache miss:
mock-anchor lookup (writing the cache on a hit, `Map.set` replacing any
stale entry), then the terminal "Not in trust anchor list". -/
def isTrustedIssuerUncached (st : TrustState) (did : String)
    (config : TrustResolverConfig) (now : Int) : TrustCheckResult × TrustState :=
  if config.enableMockTrustAnchors then
    match st.mockAnchors.find? (fun a => a.did = did) with
    | some mockAnchor =>
      let st' := { st with trustAnchorCache :=
        (did, ⟨mockAnchor, now⟩) :: st.trustAnchorCache.filter (fun p => p.1 ≠ did) }
      let isValid := anchorIsValid mockAnchor now
      (⟨isValid, some mockAnchor,
        some (if isValid then "Trusted anchor (mock)" else "Anchor expired or revoked")⟩, st')
    | none => (⟨false, none, some "Not in trust anchor list"⟩, st)
  else (⟨false, none, some "Not in trust anchor list"⟩, st)

/-- `isTrustedIssuer(did, config)` at time `now`.  `thrown` carries the
message of an exception raised inside the `try` body (`none` when the
body runs to completion); the catch clause maps it to a
`trusted: false` result.  Returns the result and the new state (the
cache is written on a mock-anchor hit). -/
def isTrustedIssuer (st : TrustState) (did : String)
    (config : TrustResolverConfig) (now : Int) (thrown : Option String) :
    TrustCheckResult × TrustState :=
  match thrown with
  | some msg => (⟨false, none, some ("Error: " ++ msg)⟩, st)
  | none =>
    let ttl := (config.cacheTTL.getD DEFAULT_CACHE_TTL) * 1000
    let cached := (st.trustAnchorCache.find? (fun p => p.1 = did)).map (fun p => p.2)
    match cached with
    | some entry =>
      if now - entry.timestamp < ttl then
        let isValid := anchorIsValid entry.anchor now
        (⟨isValid, some entry.anchor,
          some (if isValid then "Trusted anchor (cached)" else "Anchor expired or revoked")⟩, st)
      else isTrustedIssuerUncached st did config now
    | none => isTrustedIssuerUncached st did config now

end Trust

/-! ## Audit log (`src/services/OAuthService.ts` `logAuditEvent`;
hash-chain columns from `migrations/005_audit_hash_chain.sql`) -/

namespace Audit

/-- `AuditEvent` as passed to `logAuditEvent`. -/
structure AuditEvent where
  eventType : String
  actor : String
  resource : String
  action : String
  result : String
  metadata : Option String
  timestamp : Option Int
  deriving DecidableEq, Repr

/-- An `audit_logs` row after migration 005: the inserted columns plus
the nullable `previous_hash` / `current_hash` chain columns. -/
structure AuditRow where
  id : Nat
  eventType : String
  actor : String
  resource : String
  action : String
  result : String
  metadata : Option String
  timestamp : Int
  previous_hash : Option String
  current_hash : Option String
  deriving DecidableEq, Repr

/-- The `audit_logs` table. -/
abbrev AuditTable := List AuditRow

/-- `logAuditEvent(event)`: `INSERT INTO audit_logs (event_type, actor,
resource, action, result, metadata, timestamp) VALUES (...)` — the
hash-chain columns are not in the column list, so the new row's
`previous_hash` and `current_hash` are NULL.  Returns the new table
and the boolean result (`true` on insert). -/
def logAuditEvent (table : AuditTable) (event : AuditEvent) (now : Int) :
    AuditTable × Bool :=
  (table ++ [{ id := table.length + 1,
               eventType := event.eventType,
               actor := event.actor,
               resource := event.resource,
               action := event.action,
               result := event.result,
               metadata := event.metadata,
               timestamp := event.timestamp.getD now,
               previous_hash := none,
               current_hash := none }],
   true)

/-- Modelled from the spec: no hash computation or `verifyChain`
routine exists in the source; the spec's append contract computes
`current_hash = H(serialize(event) ‖ previous_hash_of_last_entry)`.
`H` and `serialize` are abstract parameters of the model. -/
def specChainHash (hash : String → String) (serialize : AuditRow → String)
    (row : AuditRow) (prev : String) : String :=
  hash (serialize row ++ prev)

/-- Modelled from the spec: `verifyChain` over a prefix recomputes each
entry's hash from its content and the previous entry's hash and checks
the links.  `genesis` is the hash preceding the first entry. -/
def specVerifyChain (hash : String → String) (serialize : AuditRow → String)
    (genesis : String) : List AuditRow → Bool
  | [] => true
  | row :: rest =>
    (row.previous_hash == some genesis) &&
    (row.current_hash == some (specChainHash hash serialize row genesis)) &&
    specVerifyChain hash serialize (specChainHash hash serialize row genesis) rest

end Audit

/-! ## Mobile document / MSO verifier (`src/unnamed/part_001`,
mDoc decoder service) -/

namespace MDoc

/-- `ValidityInfo` of the Mobile Security Object (epoch ms). -/
structure ValidityInfo where
  validFrom : Int
  validUntil : Int
  deriving DecidableEq, Repr

/-- `MobileSecurityObject` fields read by `verifyMSO`; `version` and
`digestAlgorithm` are `Option` so that the JS falsy check on a missing
field is expressible. -/
structure MobileSecurityObject where
  version : Option String
  digestAlgorithm : Option String
  docType : String
  validityInfo : ValidityInfo
  deriving DecidableEq, Repr

/-- Result type of `verifyMSO`: `{ valid: boolean; error?: string }`.
It has no warnings field. -/
structure MSOResult where
  valid : Bool
  error : Option String
  deriving DecidableEq, Repr

/-- `verifyMSO(mso)` at time `now`: structural check, validity window,
then — with the digest and issuer-signature checks left as TODOs —
`{ valid: true }`. -/
def verifyMSO (mso : MobileSecurityObject) (now : Int) : MSOResult :=
  if mso.version.isNone || mso.digestAlgorithm.isNone then
    ⟨false, some "Invalid MSO structure"⟩
  else if now < mso.validityInfo.validFrom then
    ⟨false, some "MSO not yet valid"⟩
  else if mso.validityInfo.validUntil < now then
    ⟨false, some "MSO expired"⟩
  else
    ⟨true, none⟩

end MDoc

/-! ## DID documents and key extraction (shared by the SD-JWT and VC
validators) -/

namespace DID

/-- Opaque JWK key material (its JSON text). -/
abbrev JWK := String

/-- `VerificationMethod` (fields used by key extraction). -/
structure VerificationMethod where
  id : String
  publicKeyJwk : Option JWK

/-- An `assertionMethod` entry: a string reference or an inline
verification method. -/
inductive AMEntry where
  | ref (id : String)
  | vm (m : VerificationMethod)

/-- `DIDDocument` (fields used by key extraction). -/
structure DIDDocument where
  id : String
  verificationMethod : Option (List VerificationMethod)
  assertionMethod : Option (List AMEntry)

/-- Result of `resolveDID` as consumed by the validators. -/
structure DIDResolutionResult where
  success : Bool
  document : Option DIDDocument
  error : Option String

/-- Priority-2 scan of the VC validator's `extractPublicKeyFromDID`:
first `verificationMethod` entry carrying a `publicKeyJwk`. -/
def firstKeyInVerificationMethods (doc : DIDDocument) : Option JWK :=
  match doc.verificationMethod with
  | some vms => (vms.find? (fun v => v.publicKeyJwk.isSome)).bind (fun v => v.publicKeyJwk)
  | none => none

/-- `extractPublicKeyFromDID` of the VC validator
(`sessionService.ts` concatenation): `assertionMethod[0]` inline key,
else the reference resolved through `verificationMethod`, else the
first `verificationMethod` with a key. -/
def extractPublicKeyFromDID (doc : DIDDocument) : Option JWK :=
  match doc.assertionMethod with
  | some (AMEntry.vm m :: _) =>
    (match m.publicKeyJwk with
     | some k => some k
     | none => firstKeyInVerificationMethods doc)
  | some (AMEntry.ref r :: _) =>
    (match doc.verificationMethod with
     | some vms =>
       (match vms.find? (fun v => v.id = r) with
        | some v =>
          (match v.publicKeyJwk with
           | some k => some k
           | none => firstKeyInVerificationMethods doc)
        | none => firstKeyInVerificationMethods doc)
     | none => firstKeyInVerificationMethods doc)
  | _ => firstKeyInVerificationMethods doc

/-- `extractPublicKeyFromDID` of the SD-JWT validator
(`src/unnamed/part_000`): only index `[0]` of `assertionMethod`, then
only index `[0]` of `verificationMethod`. -/
def extractPublicKeyFromDIDSD (doc : DIDDocument) : Option JWK :=
  let fromAssertion : Option JWK :=
    match doc.assertionMethod with
    | some (AMEntry.vm m :: _) => m.publicKeyJwk
    | _ => none
  match fromAssertion with
  | some k => some k
  | none =>
    match doc.verificationMethod with
    | some (v :: _) => v.publicKeyJwk
    | _ => none

end DID

/-! ## Calendar dates (`new Date(...)` as read by `calculateAge`) -/

/-- A calendar date as `getFullYear` / `getMonth` / `getDate` expose it
(the month base offset cancels in differences). -/
structure SimpleDate where
  year : Int
  month : Int
  day : Int
  deriving DecidableEq, Repr

/-- `calculateAge(birthDate)` against `today`. -/
def calculateAge (today birth : SimpleDate) : Int :=
  let age := today.year - birth.year
  let monthDiff := today.month - birth.month
  if monthDiff < 0 ∨ (monthDiff = 0 ∧ today.day < birth.day) then age - 1 else age

/-- `new Date(s)` for the `YYYY-MM-DD` strings birthdate claims hold;
`none` is an invalid date (`NaN` components). -/
def parseISODate (s : String) : Option SimpleDate :=
  match splitChar (fun c => c = '-') s.toList with
  | [y, m, d] =>
    match chunkToNat? y, chunkToNat? m, chunkToNat? d with
    | some yn, some mn, some dn => some ⟨(yn : Int), (mn : Int), (dn : Int)⟩
    | _, _, _ => none
  | _ => none

/-- A claim value as `new Date(v as string)` sees it. -/
def parseClaimDate (v : ClaimValue) : Option SimpleDate :=
  match v with
  | .str s => parseISODate s
  | _ => none

/-! ## SD-JWT validator (`src/unnamed/part_000`) -/

namespace SDJWT

/-- Outcome of `@sd-jwt/decode` on the token: the payload fields the
validator reads through optional chaining, and the disclosed claim
object (`decodedSDJWT.disclosures || {}`). -/
structure DecodedSDJWT where
  jwtPayloadIss : Option String
  jwtPayloadIssuer : Option String
  payloadIss : Option String
  disclosures : List (String × ClaimValue)

/-- JWT payload fields read after signature verification. -/
structure SDPayload where
  iat : Option Int
  exp : Option Int

/-- Result of `verifyJWTWithJWK` on the issuer-signed JWT. -/
structure JWTVerifyResult where
  valid : Bool
  error : Option String
  payload : Option SDPayload

/-- `SDJWTValidationOptions`. -/
structure SDJWTValidationOptions where
  checkTrust : Option Bool
  checkExpiration : Option Bool
  requireMinimumDisclosures : Option Nat

/-- `SDJWTValidationResult` (absent optional fields are `none`; the
`errors`/`warnings` arrays are kept as lists, `[]` meaning absent;
date strings are kept as the epoch milliseconds they render). -/
structure SDJWTValidationResult where
  valid : Bool
  errors : List String
  warnings : List String
  issuer : Option String
  disclosedClaims : Option (List (String × ClaimValue))
  issuanceDate : Option Int
  expirationDate : Option Int
  trusted : Option Bool
  disclosureCount : Option Nat

/-- Step 8's expiry check (`opts.checkExpiration && payload.exp` with
`exp = 0` falsy, then `expDate < new Date()`): the error it pushes. -/
def sdExpirationErrors (optCheckExpiration : Bool) (payload : SDPayload)
    (now : Int) : List String :=
  match payload.exp with
  | some e =>
    if optCheckExpiration ∧ e ≠ 0 ∧ e * 1000 < now then
      ["SD-JWT expired on " ++ toString (e * 1000)]
    else []
  | none => []

/-- `validateSDJWT(token, options)` at time `now`.  The awaited calls
are passed as values: `decoded` is the `sdJwtDecode` outcome
(`Except.error` = the thrown decode exception), `didResolution` the
`resolveDID` result, `issuerVerification` the `verifyJWTWithJWK`
result on the issuer JWT, `trustCheck` the `isTrustedIssuer` result. -/
def validateSDJWT (decoded : Except String DecodedSDJWT)
    (didResolution : DID.DIDResolutionResult)
    (issuerVerification : JWTVerifyResult)
    (trustCheck : Trust.TrustCheckResult)
    (options : SDJWTValidationOptions)
    (now : Int) : SDJWTValidationResult :=
  let optCheckTrust := options.checkTrust.getD true
  let optCheckExpiration := options.checkExpiration.getD true
  match decoded with
  | .error e =>
    ⟨false, ["Failed to decode SD-JWT: " ++ e], [], none, none, none, none, none, none⟩
  | .ok d =>
    match jsOrStr d.jwtPayloadIss (jsOrStr d.jwtPayloadIssuer d.payloadIss) with
    | none => ⟨false, ["Missing issuer in SD-JWT"], [], none, none, none, none, none, none⟩
    | some issuerDID =>
      if !didResolution.success || didResolution.document.isNone then
        ⟨false, ["Failed to resolve issuer DID: " ++ (didResolution.error.getD "Unknown error")],
         [], some issuerDID, none, none, none, none, none⟩
      else
        match (didResolution.document.getD ⟨"", none, none⟩ : DID.DIDDocument) with
        | doc =>
          match DID.extractPublicKeyFromDIDSD doc with
          | none =>
            ⟨false, ["No public key found in DID document"], [], some issuerDID,
             none, none, none, none, none⟩
          | some _publicKey =>
            if !issuerVerification.valid then
              ⟨false, ["Issuer JWT signature verification failed: "
                  ++ (issuerVerification.error.getD "Unknown error")],
               [], some issuerDID, none, none, none, none, none⟩
            else
              let disclosedClaims := d.disclosures
              let disclosureCount := disclosedClaims.length
              let warnings0 : List String :=
                match options.requireMinimumDisclosures with
                | some m =>
                  if m ≠ 0 ∧ disclosureCount < m then
                    ["Only " ++ toString disclosureCount
                      ++ " claims disclosed, required minimum: " ++ toString m]
                  else []
                | none => []
              let payload := issuerVerification.payload.getD ⟨none, none⟩
              let issuanceDate := payload.iat.bind
                (fun t => if t = 0 then none else some (t * 1000))
              let expirationDate := payload.exp.bind
                (fun t => if t = 0 then none else some (t * 1000))
              let errors0 : List String := sdExpirationErrors optCheckExpiration payload now
              let trusted := if optCheckTrust then trustCheck.trusted else false
              let warnings :=
                warnings0 ++
                  (if optCheckTrust ∧ !trusted then
                    ["Issuer not in trust anchor list: " ++ (trustCheck.reason.getD "Unknown")]
                  else [])
              if !errors0.isEmpty then
                ⟨false, errors0, warnings, some issuerDID, none, none, none, none,
                 some disclosureCount⟩
              else
                ⟨true, [], warnings, some issuerDID, some disclosedClaims,
                 issuanceDate, expirationDate, some trusted, some disclosureCount⟩

/-- Result of `verifyAgeOver`. -/
structure AgeOverResult where
  verified : Bool
  ageOver : Option Int
  error : Option String
  deriving DecidableEq, Repr

/-- The `for (const key of Object.keys(disclosedClaims))` loop of
`verifyAgeOver`: first key starting with `age_over_` whose parsed
threshold is at least `minAge` and whose claim value is `=== true`. -/
def findHigherAgeClaim (claims : List (String × ClaimValue)) (minAge : Nat) :
    List (String × ClaimValue) → Option Nat
  | [] => none
  | (key, _) :: rest =>
    if strStartsWith key "age_over_" then
      match parseLeadingNat (strDrop key 9) with
      | some claimAge =>
        if minAge ≤ claimAge ∧ lookupClaim claims key = some (.boolVal true) then
          some claimAge
        else findHigherAgeClaim claims minAge rest
      | none => findHigherAgeClaim claims minAge rest
    else findHigherAgeClaim claims minAge rest

/-- `a || b` on claim values under JS truthiness (the
`disclosedClaims.birth_date || disclosedClaims.birthdate` read). -/
def jsOrClaim (a b : Option ClaimValue) : Option ClaimValue :=
  match a with
  | some v => if v.truthy then some v else b
  | none => b

/-- `verifyAgeOver(sdJwtToken, minAge)` after its internal
`validateSDJWT` call returned `validation`; `today` is the current
date used by `calculateAge`. -/
def verifyAgeOver (validation : SDJWTValidationResult) (minAge : Nat)
    (today : SimpleDate) : AgeOverResult :=
  if !validation.valid then
    ⟨false, none, some ("SD-JWT validation failed: "
        ++ String.intercalate ", " validation.errors)⟩
  else
    let disclosedClaims := validation.disclosedClaims.getD []
    let ageOverKey := "age_over_" ++ toString minAge
    if lookupClaim disclosedClaims ageOverKey = some (.boolVal true) then
      ⟨true, some (minAge : Int), none⟩
    else
      match findHigherAgeClaim disclosedClaims minAge disclosedClaims with
      | some claimAge => ⟨true, some (claimAge : Int), none⟩
      | none =>
        match jsOrClaim (lookupClaim disclosedClaims "birth_date")
            (lookupClaim disclosedClaims "birthdate") with
        | some v =>
          if v.truthy then
            match parseClaimDate v with
            | some birth =>
              let age := calculateAge today birth
              if (minAge : Int) ≤ age then ⟨true, some age, none⟩
              else ⟨false, none, some ("Age " ++ toString age
                  ++ " is below minimum " ++ toString minAge)⟩
            | none =>
              ⟨false, none, some ("Age NaN is below minimum " ++ toString minAge)⟩
          else
            ⟨false, none, some ("No age_over_" ++ toString minAge
                ++ " claim found in disclosed claims")⟩
        | none =>
          ⟨false, none, some ("No age_over_" ++ toString minAge
              ++ " claim found in disclosed claims")⟩

end SDJWT

/-! ## JWT-VC validator (`validateVC`, concatenated into
`sessionService.ts`) -/

namespace VC

/-- A `type` / `@context` style value: a string or an array of
strings. -/
inductive StrOrArr where
  | one (s : String)
  | many (l : List String)

/-- A date value that may be a number (epoch seconds) or a date
string. -/
inductive NumOrStr where
  | num (n : Int)
  | str (s : String)

/-- The fields the validator reads through the `VerifiableCredential`
interface (on `payload.vc` or, by the fallback cast, on the payload
itself).  `hasContext` is the truthiness of `'@context'`. -/
structure VCClaims where
  hasContext : Bool
  typeField : Option StrOrArr
  credentialSubject : Option (List (String × ClaimValue))
  issuer : Option String
  issuanceDate : Option String
  expirationDate : Option NumOrStr

/-- A decoded JWT payload: registered claims plus the `vc` claim and
the payload itself viewed through the `VerifiableCredential` interface
(`self`, for the `verification.payload as any` fallback). -/
structure VCPayload where
  iss : Option String
  issuer : Option String
  vc : Option VCClaims
  self : VCClaims
  iat : Option Int
  exp : Option Int

/-- Result of `verifyJWTWithJWK(vcJWT, publicKey)`. -/
structure VCVerifyResult where
  valid : Bool
  error : Option String
  payload : Option VCPayload

/-- `VCValidationOptions`. -/
structure VCValidationOptions where
  checkTrust : Option Bool
  checkExpiration : Option Bool
  checkRevocation : Option Bool

/-- `VCValidationResult` (`errors`/`warnings` kept as lists, `[]`
meaning absent). -/
structure VCValidationResult where
  valid : Bool
  errors : List String
  warnings : List String
  issuer : Option String
  issuanceDate : Option String
  expirationDate : Option String
  trusted : Option Bool
  credentialSubject : Option (List (String × ClaimValue))

/-- Truthiness of a `type`-style value (`!vc.type`): absent and `""`
are falsy, an array (even empty) is truthy. -/
def strOrArrTruthy : Option StrOrArr → Bool
  | none => false
  | some (.one s) => !s.isEmpty
  | some (.many _) => true

/-- `types.includes('VerifiableCredential')` after
`Array.isArray(vc.type) ? vc.type : [vc.type]`. -/
def typeHasVCMarker : Option StrOrArr → Bool
  | none => false
  | some (.one s) => s = "VerifiableCredential"
  | some (.many l) => l.contains "VerifiableCredential"

/-- Truthiness of a number-or-string date value. -/
def numOrStrTruthy : NumOrStr → Bool
  | .num n => n ≠ 0
  | .str s => !s.isEmpty

/-- `vc.expirationDate || vcPayload.exp` under JS truthiness. -/
def expirationDateOf (vcv : VCClaims) (p : VCPayload) : Option NumOrStr :=
  match vcv.expirationDate with
  | some v => if numOrStrTruthy v then some v else p.exp.bind
      (fun e => if e = 0 then none else some (NumOrStr.num e))
  | none => p.exp.bind (fun e => if e = 0 then none else some (NumOrStr.num e))

/-- `vc.issuanceDate || vcPayload.iat`, rendered by the final
`?.toString()`. -/
def issuanceDateOf (vcv : VCClaims) (p : VCPayload) : Option String :=
  match vcv.issuanceDate with
  | some s => if s.isEmpty then p.iat.bind
      (fun t => if t = 0 then none else some (toString t)) else some s
  | none => p.iat.bind (fun t => if t = 0 then none else some (toString t))

/-- The final `expirationDate?.toString()` rendering. -/
def numOrStrToString : NumOrStr → String
  | .num n => toString n
  | .str s => s

/-- The expiry instant in epoch ms: a number is epoch seconds
(`* 1000`), a string goes through `new Date(s)` (`dateParse`, `none` =
invalid date, whose `NaN` comparison is false). -/
def expMillis (dateParse : String → Option Int) : NumOrStr → Option Int
  | .num n => some (n * 1000)
  | .str s => dateParse s

/-- Step 6's expiry check (`opts.checkExpiration && expirationDate`,
then `expDate < new Date()`): the error it pushes. -/
def vcExpirationErrors (optCheckExpiration : Bool) (expirationDate : Option NumOrStr)
    (dateParse : String → Option Int) (now : Int) : List String :=
  match expirationDate with
  | some v =>
    if optCheckExpiration then
      match expMillis dateParse v with
      | some ms => if ms < now then ["Credential expired on " ++ toString ms] else []
      | none => []
    else []
  | none => []

/-- `validateVC(vcJWT, options)` at time `now`.  `decoded` is the
outcome of the base64/JSON decode of the JWT payload (`Except.error` =
malformed JWT or thrown parse error), the awaited `resolveDID`,
`verifyJWTWithJWK` and `isTrustedIssuer` results are passed as values,
and `dateParse` is `new Date(string).getTime()`. -/
def validateVC (decoded : Except String VCPayload)
    (didResolution : DID.DIDResolutionResult)
    (verification : VCVerifyResult)
    (trustCheck : Trust.TrustCheckResult)
    (options : VCValidationOptions)
    (dateParse : String → Option Int)
    (now : Int) : VCValidationResult :=
  let optCheckTrust := options.checkTrust.getD true
  let optCheckExpiration := options.checkExpiration.getD true
  let optCheckRevocation := options.checkRevocation.getD false
  match decoded with
  | .error e =>
    ⟨false, [e], [], none, none, none, none, none⟩
  | .ok vcPayload =>
    match jsOrStr vcPayload.iss
        (jsOrStr (vcPayload.vc.bind (fun c => c.issuer)) vcPayload.issuer) with
    | none => ⟨false, ["Missing issuer in credential"], [], none, none, none, none, none⟩
    | some issuerDID =>
      if !didResolution.success || didResolution.document.isNone then
        ⟨false, ["Failed to resolve issuer DID: " ++ (didResolution.error.getD "Unknown error")],
         [], some issuerDID, none, none, none, none⟩
      else
        match DID.extractPublicKeyFromDID (didResolution.document.getD ⟨"", none, none⟩) with
        | none =>
          ⟨false, ["No verification method with publicKeyJwk found in DID document"],
           [], some issuerDID, none, none, none, none⟩
        | some _publicKey =>
          if !verification.valid then
            ⟨false, ["JWT signature verification failed: "
                ++ (verification.error.getD "Unknown error")],
             [], some issuerDID, none, none, none, none⟩
          else
            match verification.payload with
            | none =>
              ⟨false, ["Missing vc claim in JWT payload"], [], some issuerDID,
               none, none, none, none⟩
            | some p =>
              let vcv := p.vc.getD p.self
              let errors1 : List String :=
                (if !vcv.hasContext then ["Missing required field: @context"] else []) ++
                (if !strOrArrTruthy vcv.typeField then ["Missing required field: type"] else []) ++
                (if vcv.credentialSubject.isNone then
                  ["Missing required field: credentialSubject"] else [])
              let warnings1 : List String :=
                if !typeHasVCMarker vcv.typeField then
                  ["type array should include \x22VerifiableCredential\x22"]
                else []
              let issuanceDate := issuanceDateOf vcv p
              let expirationDate := expirationDateOf vcv p
              let errors2 : List String :=
                vcExpirationErrors optCheckExpiration expirationDate dateParse now
              let trusted := if optCheckTrust then trustCheck.trusted else false
              let warnings2 : List String :=
                if optCheckTrust ∧ !trusted then
                  ["Issuer not in trust anchor list: "
                    ++ (trustCheck.reason.getD "Unknown reason")]
                else []
              let warnings3 : List String :=
                if optCheckRevocation then ["Revocation checking not yet implemented"] else []
              let errors := errors1 ++ errors2
              let warnings := warnings1 ++ warnings2 ++ warnings3
              if !errors.isEmpty then
                ⟨false, errors, warnings, some issuerDID, issuanceDate,
                 (expirationDate.map numOrStrToString), some trusted, none⟩
              else
                ⟨true, [], warnings, some issuerDID, issuanceDate,
                 (expirationDate.map numOrStrToString), some trusted, vcv.credentialSubject⟩

end VC

/-! ## Concrete instances used by counterexamples and witnesses -/

namespace Examples

/-- A definition with one required descriptor and two wholly-optional
descriptors. -/
def pdMixed : PD.PresentationDefinition :=
  { id := "pd-1",
    input_descriptors :=
      [{ id := "d_req", fields := some [{ optional := none }] },
       { id := "d_optB", fields := some [{ optional := some true }] },
       { id := "d_optC", fields := some [{ optional := some true }] }] }

/-- A submission mapping all three descriptors; `d_optC` points past
the end of the credential array. -/
def subMixed : PD.PresentationSubmission :=
  { id := "sub-1", definition_id := "pd-1",
    descriptor_map :=
      [{ id := "d_req", format := "jwt_vc", path := "$.verifiableCredential[0]" },
       { id := "d_optB", format := "jwt_vc", path := "$.verifiableCredential[1]" },
       { id := "d_optC", format := "jwt_vc", path := "$.verifiableCredential[5]" }] }

/-- A presentation carrying `subMixed` and two credentials. -/
def vpMixed : PD.VerifiablePresentation :=
  { presentation_submission := some subMixed,
    credentials := [{ claims := [] }, { claims := [] }] }

/-- A definition whose single descriptor has an empty `fields` list. -/
def pdEmptyFields : PD.PresentationDefinition :=
  { id := "pd-2", input_descriptors := [{ id := "d_empty", fields := some [] }] }

/-- A presentation for `pdEmptyFields` whose descriptor map is empty. -/
def vpEmptyFields : PD.VerifiablePresentation :=
  { presentation_submission :=
      some { id := "sub-2", definition_id := "pd-2", descriptor_map := [] },
    credentials := [] }

/-- A definition with one mapped required descriptor and one unmapped
wholly-optional descriptor (nonempty field list). -/
def pdWitness : PD.PresentationDefinition :=
  { id := "pd-3",
    input_descriptors :=
      [{ id := "id_credential", fields := some [{ optional := none }] },
       { id := "d_opt", fields := some [{ optional := some true }] }] }

/-- A presentation for `pdWitness` mapping only the required
descriptor to credential index 0. -/
def vpWitness : PD.VerifiablePresentation :=
  { presentation_submission :=
      some { id := "sub-3", definition_id := "pd-3",
             descriptor_map :=
               [{ id := "id_credential", format := "jwt_vc",
                  path := "$.verifiableCredential[0]" }] },
    credentials := [{ claims := [] }] }

/-- A definition with a required descriptor missing from the map. -/
def pdUnmapped : PD.PresentationDefinition :=
  { id := "pd-4",
    input_descriptors := [{ id := "d_missing", fields := some [{ optional := none }] }] }

/-- A presentation for `pdUnmapped` whose descriptor map is empty. -/
def vpUnmapped : PD.VerifiablePresentation :=
  { presentation_submission :=
      some { id := "sub-4", definition_id := "pd-4", descriptor_map := [] },
    credentials := [] }

/-- A DID document holding one verification method with a key. -/
def sdDoc : DID.DIDDocument :=
  { id := "did:example:issuer",
    verificationMethod :=
      some [{ id := "did:example:issuer#keys-1", publicKeyJwk := some "jwk" }],
    assertionMethod := none }

/-- A decoded SD-JWT with one disclosed claim. -/
def sdDecoded : SDJWT.DecodedSDJWT :=
  { jwtPayloadIss := some "did:example:issuer", jwtPayloadIssuer := none,
    payloadIss := none, disclosures := [("given_name", ClaimValue.str "Alice")] }

/-- A successful DID resolution for `sdDoc`. -/
def sdResolution : DID.DIDResolutionResult :=
  { success := true, document := some sdDoc, error := none }

/-- A passing signature verification with an empty payload. -/
def sdVerify : SDJWT.JWTVerifyResult :=
  { valid := true, error := none, payload := some { iat := none, exp := none } }

/-- A positive trust check. -/
def sdTrust : Trust.TrustCheckResult :=
  { trusted := true, anchor := none, reason := some "Trusted anchor (mock)" }

/-- Options requiring at least three disclosures. -/
def sdOptions : SDJWT.SDJWTValidationOptions :=
  { checkTrust := some true, checkExpiration := some true,
    requireMinimumDisclosures := some 3 }

/-- The `VerifiableCredential` view of a structurally complete JWT-VC
payload. -/
def vcClaims : VC.VCClaims :=
  { hasContext := true,
    typeField := some (VC.StrOrArr.many ["VerifiableCredential", "IDCredential"]),
    credentialSubject := some [("given_name", ClaimValue.str "Alice")],
    issuer := none, issuanceDate := some "2024-01-01", expirationDate := none }

/-- A decoded JWT-VC payload with issuer in `iss` and the credential
in the `vc` claim. -/
def vcPayloadX : VC.VCPayload :=
  { iss := some "did:example:issuer", issuer := none, vc := some vcClaims,
    self := { hasContext := false, typeField := none, credentialSubject := none,
              issuer := none, issuanceDate := none, expirationDate := none },
    iat := none, exp := none }

/-- A passing JWT-VC signature verification returning `vcPayloadX`. -/
def vcVerifyX : VC.VCVerifyResult :=
  { valid := true, error := none, payload := some vcPayloadX }

/-- A negative trust check ("not in trust anchor list"). -/
def vcTrustX : Trust.TrustCheckResult :=
  { trusted := false, anchor := none, reason := some "Not in trust anchor list" }

/-- Default VC validation options (`checkTrust` on). -/
def vcOptionsX : VC.VCValidationOptions :=
  { checkTrust := none, checkExpiration := none, checkRevocation := none }

end Examples

/-! ## Theorems -/

/-- C4: the audit-chain append is claimed to compute `current_hash =
H(serialize(event) ‖ previous_hash_of_last_entry)` for every appended
entry, with `verifyChain` then detecting mutation.  The actual
`logAuditEvent` inserts the row without touching the hash columns:
both stay NULL on every appended entry, and the spec's chain
verification rejects every appended suffix outright, whatever hash and
serialization functions are used. -/
theorem logAuditEvent_no_hash_chain (table : Audit.AuditTable)
    (event : Audit.AuditEvent) (now : Int) :
    Audit.logAuditEvent table event now =
      (table ++ [{ id := table.length + 1, eventType := event.eventType,
                   actor := event.actor, resource := event.resource,
                   action := event.action, result := event.result,
                   metadata := event.metadata, timestamp := event.timestamp.getD now,
                   previous_hash := none, current_hash := none }], true)
    ∧ ∀ (hash : String → String) (serialize : Audit.AuditRow → String) (genesis : String),
        Audit.specVerifyChain hash serialize genesis
          ((Audit.logAuditEvent table event now).1.drop table.length) = false := by
  refine ⟨rfl, fun hash serialize genesis => ?_⟩
  show Audit.specVerifyChain hash serialize genesis ((table ++ _).drop table.length) = false
  rw [List.drop_left]
  rfl

/-- C7: `verifyMSO` is claimed never to report a bare `valid: true`
while the MSO signature check is unimplemented.  A structurally sound
MSO inside its validity window makes it return exactly
`{ valid := true, error := none }`, and its result type carries no
warnings field at all, so the missing signature check is not surfaced
to the caller. -/
theorem verifyMSO_bare_valid_without_warning :
    MDoc.verifyMSO
      { version := some "1.0", digestAlgorithm := some "SHA-256",
        docType := "org.iso.18013.5.1.mDL",
        validityInfo := { validFrom := 0, validUntil := 100000 } } 50000 =
      { valid := true, error := none } := by
  rfl

/-- C6: a lookup by state that finds a `pending` session past its
`expires_at` returns the session with status `expired` and, as a side
effect of the read, stores `expired` on every row with that session
id. -/
theorem getVPSessionByState_reports_expired (store : Session.Store)
    (state : String) (now : Int) (s : Session.VPSession)
    (hfind : store.find? (fun x => x.state = state) = some s)
    (hpending : s.status = Session.SessionStatus.pending)
    (hpast : s.expires_at < now) :
    (Session.getVPSessionByState store state now).1 =
        some { s with status := Session.SessionStatus.expired }
    ∧ ∀ r ∈ (Session.getVPSessionByState store state now).2,
        r.id = s.id → r.status = Session.SessionStatus.expired := by
  simp only [Session.getVPSessionByState, hfind]
  rw [if_pos ⟨hpending, hpast⟩]
  refine ⟨rfl, fun r hr hid => ?_⟩
  simp only [Session.updateSessionStatus, List.mem_map] at hr
  obtain ⟨a, _, ha⟩ := hr
  by_cases hcase : a.id = s.id
  · rw [if_pos hcase] at ha
    rw [← ha]
  · rw [if_neg hcase] at ha
    exact absurd (ha ▸ hid) hcase

/-- C6 witness: a concrete pending session whose expiry has elapsed is
reported and stored as `expired`. -/
theorem getVPSessionByState_reports_expired_witness :
    (Session.getVPSessionByState
        [{ id := "sess-1", state := "st-1", nonce := "n-1", expires_at := 10,
           status := Session.SessionStatus.pending, vp_token := none,
           presentation_submission := none, completed_at := none }] "st-1" 20).1 =
      some { id := "sess-1", state := "st-1", nonce := "n-1", expires_at := 10,
             status := Session.SessionStatus.expired, vp_token := none,
             presentation_submission := none, completed_at := none }
    ∧ ∀ r ∈ (Session.getVPSessionByState
        [{ id := "sess-1", state := "st-1", nonce := "n-1", expires_at := 10,
           status := Session.SessionStatus.pending, vp_token := none,
           presentation_submission := none, completed_at := none }] "st-1" 20).2,
        r.id = "sess-1" → r.status = Session.SessionStatus.expired :=
  getVPSessionByState_reports_expired
    [{ id := "sess-1", state := "st-1", nonce := "n-1", expires_at := 10,
       status := Session.SessionStatus.pending, vp_token := none,
       presentation_submission := none, completed_at := none }] "st-1" 20
    { id := "sess-1", state := "st-1", nonce := "n-1", expires_at := 10,
      status := Session.SessionStatus.pending, vp_token := none,
      presentation_submission := none, completed_at := none }
    (by rfl) (by rfl) (by decide)

/-- A store with no pending row for the id makes `completeVPSession`
a no-op returning `false`. -/
theorem completeVPSession_no_hit (store : Session.Store) (sid tok sub : String)
    (now : Int)
    (h : ∀ s ∈ store, ¬(s.id = sid ∧ s.status = Session.SessionStatus.pending)) :
    Session.completeVPSession store sid tok sub now = (store, false) := by
  unfold Session.completeVPSession
  refine Prod.ext ?_ ?_
  · show store.map _ = store
    calc store.map _ = store.map id := List.map_congr_left (fun a ha => by
            simp only [id_eq]
            rw [if_neg (h a ha)])
      _ = store := List.map_id store
  · show decide (store.countP _ > 0) = false
    rw [decide_eq_false_iff_not]
    intro hpos
    obtain ⟨a, ha, hp⟩ := List.countP_pos_iff.mp hpos
    exact h a ha (of_decide_eq_true hp)

/-- After any `completeVPSession` call, no row with the target id is
still pending. -/
theorem completeVPSession_clears_pending (store : Session.Store)
    (sid tok sub : String) (now : Int) :
    ∀ r ∈ (Session.completeVPSession store sid tok sub now).1,
      ¬(r.id = sid ∧ r.status = Session.SessionStatus.pending) := by
  intro r hr
  unfold Session.completeVPSession at hr
  simp only [List.mem_map] at hr
  obtain ⟨a, _, ha⟩ := hr
  by_cases hcase : a.id = sid ∧ a.status = Session.SessionStatus.pending
  · rw [if_pos hcase] at ha
    rw [← ha]
    rintro ⟨-, hcon⟩
    exact Session.SessionStatus.noConfusion hcon
  · rw [if_neg hcase] at ha
    exact ha ▸ hcase

/-- A store holding a pending row for the id makes `completeVPSession`
report success. -/
theorem completeVPSession_succeeds (store : Session.Store) (sid tok sub : String)
    (now : Int)
    (h : ∃ s ∈ store, s.id = sid ∧ s.status = Session.SessionStatus.pending) :
    (Session.completeVPSession store sid tok sub now).2 = true := by
  unfold Session.completeVPSession
  show decide (store.countP _ > 0) = true
  rw [decide_eq_true_eq]
  obtain ⟨s, hs, hprop⟩ := h
  exact List.countP_pos_iff.mpr ⟨s, hs, decide_eq_true hprop⟩

/-- Unfolding equation of `runCompletionAttempts` on a cons cell. -/
theorem runCompletionAttempts_cons (store : Session.Store) (sid : String)
    (now : Int) (tok sub : String) (rest : List (String × String)) :
    Session.runCompletionAttempts store sid now ((tok, sub) :: rest) =
      ((Session.runCompletionAttempts
          (Session.completeVPSession store sid tok sub now).1 sid now rest).1,
       (Session.completeVPSession store sid tok sub now).2 ::
        (Session.runCompletionAttempts
          (Session.completeVPSession store sid tok sub now).1 sid now rest).2) := rfl

/-- A run of attempts over a store with no pending row for the id
returns all-`false` outcomes and leaves the store unchanged. -/
theorem runCompletionAttempts_no_hit (store : Session.Store) (sid : String)
    (now : Int) (attempts : List (String × String))
    (h : ∀ s ∈ store, ¬(s.id = sid ∧ s.status = Session.SessionStatus.pending)) :
    Session.runCompletionAttempts store sid now attempts =
      (store, List.replicate attempts.length false) := by
  induction attempts with
  | nil => rfl
  | cons a rest ih =>
    obtain ⟨tok, sub⟩ := a
    rw [runCompletionAttempts_cons]
    rw [completeVPSession_no_hit store sid tok sub now h]
    rw [ih]
    simp [List.replicate_succ]

/-- C1: `completeVPSession` is the single conditional update
`... WHERE id = $3 AND status = 'pending'`: with no pending row for
the id it returns `false` and leaves the store unchanged; with a
pending row it succeeds; and over any serialized sequence of
completion attempts on one session id, at most one attempt succeeds —
exactly one when a pending row exists and at least one attempt is
made. -/
theorem completeVPSession_atomic_single_success :
    (∀ (store : Session.Store) (sid tok sub : String) (now : Int),
      (∀ s ∈ store, ¬(s.id = sid ∧ s.status = Session.SessionStatus.pending)) →
      Session.completeVPSession store sid tok sub now = (store, false))
    ∧ (∀ (store : Session.Store) (sid : String) (now : Int)
        (attempts : List (String × String)),
      (Session.runCompletionAttempts store sid now attempts).2.count true ≤ 1
      ∧ ((∃ s ∈ store, s.id = sid ∧ s.status = Session.SessionStatus.pending) →
          attempts ≠ [] →
          (Session.runCompletionAttempts store sid now attempts).2.count true = 1)) := by
  refine ⟨completeVPSession_no_hit, fun store sid now attempts => ?_⟩
  by_cases hhit : ∃ s ∈ store, s.id = sid ∧ s.status = Session.SessionStatus.pending
  · match attempts with
    | [] => exact ⟨by simp [Session.runCompletionAttempts], fun _ hne => absurd rfl hne⟩
    | (tok, sub) :: rest =>
      have hone : (Session.runCompletionAttempts store sid now
          ((tok, sub) :: rest)).2.count true = 1 := by
        rw [runCompletionAttempts_cons]
        rw [runCompletionAttempts_no_hit _ sid now rest
          (completeVPSession_clears_pending store sid tok sub now)]
        simp [completeVPSession_succeeds store sid tok sub now hhit,
          List.count_replicate]
      exact ⟨le_of_eq hone, fun _ _ => hone⟩
  · push_neg at hhit
    have h0 : ∀ s ∈ store, ¬(s.id = sid ∧ s.status = Session.SessionStatus.pending) := by
      intro s hs
      rintro ⟨h1, h2⟩
      exact absurd h2 (hhit s hs h1)
    rw [runCompletionAttempts_no_hit store sid now attempts h0]
    refine ⟨by simp [List.count_replicate], fun hex _ => ?_⟩
    obtain ⟨s, hs, h1, h2⟩ := hex
    exact absurd h2 (hhit s hs h1)

/-- C1 witness: one pending session, two racing completion attempts —
exactly one succeeds, and a completion attempt against the
already-completed store is rejected and changes nothing. -/
theorem completeVPSession_atomic_single_success_witness :
    (Session.runCompletionAttempts
      [{ id := "sess-1", state := "st-1", nonce := "n-1", expires_at := 10,
         status := Session.SessionStatus.pending, vp_token := none,
         presentation_submission := none, completed_at := none }] "sess-1" 5
      [("tokA", "subA"), ("tokB", "subB")]).2.count true = 1
    ∧ Session.completeVPSession
        [{ id := "sess-1", state := "st-1", nonce := "n-1", expires_at := 10,
           status := Session.SessionStatus.completed, vp_token := some "tokA",
           presentation_submission := some "subA", completed_at := some 5 }]
        "sess-1" "tokB" "subB" 6 =
      ([{ id := "sess-1", state := "st-1", nonce := "n-1", expires_at := 10,
          status := Session.SessionStatus.completed, vp_token := some "tokA",
          presentation_submission := some "subA", completed_at := some 5 }], false) := by
  constructor
  · exact (completeVPSession_atomic_single_success.2
      [{ id := "sess-1", state := "st-1", nonce := "n-1", expires_at := 10,
         status := Session.SessionStatus.pending, vp_token := none,
         presentation_submission := none, completed_at := none }] "sess-1" 5
      [("tokA", "subA"), ("tokB", "subB")]).2
      ⟨_, List.mem_singleton_self _, rfl, rfl⟩ (by decide)
  · exact completeVPSession_atomic_single_success.1
      [{ id := "sess-1", state := "st-1", nonce := "n-1", expires_at := 10,
         status := Session.SessionStatus.completed, vp_token := some "tokA",
         presentation_submission := some "subA", completed_at := some 5 }]
      "sess-1" "tokB" "subB" 6 (by decide)

/-- `anchorIsValid` spelled out: active status and an absent or
strictly-future `validUntil`. -/
theorem anchorIsValid_iff (a : Trust.TrustAnchor) (now : Int) :
    Trust.anchorIsValid a now = true ↔
      (a.status = Trust.AnchorStatus.active ∧
        (a.validUntil = none ∨ ∃ u, a.validUntil = some u ∧ now < u)) := by
  unfold Trust.anchorIsValid
  cases h : a.validUntil with
  | none => simp [h]
  | some u => simp [h]

/-- Cache-miss path of `isTrustedIssuer`: trusted iff the anchor list
holds a valid anchor for the identifier. -/
theorem isTrustedIssuerUncached_trusted_iff (st : Trust.TrustState) (did : String)
    (config : Trust.TrustResolverConfig) (now : Int)
    (hmock : config.enableMockTrustAnchors = true)
    (huniq : ∀ a ∈ st.mockAnchors, ∀ b ∈ st.mockAnchors, a.did = b.did → a = b) :
    (Trust.isTrustedIssuerUncached st did config now).1.trusted = true ↔
      ∃ a ∈ st.mockAnchors, a.did = did ∧ Trust.anchorIsValid a now = true := by
  unfold Trust.isTrustedIssuerUncached
  rw [hmock]
  cases hfind : st.mockAnchors.find? (fun a => decide (a.did = did)) with
  | none =>
    simp only [if_true, hfind]
    constructor
    · intro hcon
      exact absurd hcon (by simp)
    · rintro ⟨a, ha, hdid, -⟩
      have := List.find?_eq_none.mp hfind a ha
      simp [hdid] at this
  | some a =>
    have hmem : a ∈ st.mockAnchors := List.mem_of_find?_eq_some hfind
    have hdid : a.did = did := by simpa using List.find?_some hfind
    simp only [if_true, hfind]
    constructor
    · intro htrust
      exact ⟨a, hmem, hdid, htrust⟩
    · rintro ⟨b, hb, hbdid, hbvalid⟩
      have : a = b := huniq a hmem b hb (hdid.trans hbdid.symm)
      rw [this]
      exact hbvalid

/-- Every path of `isTrustedIssuer` attaches a reason. -/
theorem isTrustedIssuer_reason_isSome (st : Trust.TrustState) (did : String)
    (config : Trust.TrustResolverConfig) (now : Int) (thrown : Option String) :
    ((Trust.isTrustedIssuer st did config now thrown).1.reason).isSome = true := by
  have huncached : ((Trust.isTrustedIssuerUncached st did config now).1.reason).isSome = true := by
    unfold Trust.isTrustedIssuerUncached
    split
    · cases hfind : st.mockAnchors.find? (fun a => decide (a.did = did)) <;> simp [hfind]
    · rfl
  cases thrown with
  | some msg => rfl
  | none =>
    unfold Trust.isTrustedIssuer
    cases hfind : (st.trustAnchorCache.find? (fun p => decide (p.1 = did))) with
    | none => simpa [hfind] using huncached
    | some p =>
      simp only [hfind, Option.map_some']
      split
      · rfl
      · exact huncached

/-- C5: with the mock anchor registry enabled, a coherent cache (every
cached anchor is the registry anchor for its key) and distinct anchor
identifiers, `isTrustedIssuer` reports `trusted: true` exactly when
the registry holds an anchor for the identifier whose status is
`active` and whose `validUntil` is absent or strictly in the future;
an exception inside the lookup yields `trusted: false` with a reason,
and every result carries a reason — an unknown or failing identifier
is never reported trusted. -/
theorem isTrustedIssuer_active_anchor_iff (st : Trust.TrustState) (did : String)
    (config : Trust.TrustResolverConfig) (now : Int)
    (hmock : config.enableMockTrustAnchors = true)
    (hcoh : ∀ p ∈ st.trustAnchorCache, p.2.anchor ∈ st.mockAnchors ∧ p.2.anchor.did = p.1)
    (huniq : ∀ a ∈ st.mockAnchors, ∀ b ∈ st.mockAnchors, a.did = b.did → a = b) :
    ((Trust.isTrustedIssuer st did config now none).1.trusted = true ↔
      ∃ a ∈ st.mockAnchors, a.did = did ∧ a.status = Trust.AnchorStatus.active ∧
        (a.validUntil = none ∨ ∃ u, a.validUntil = some u ∧ now < u))
    ∧ (∀ msg, (Trust.isTrustedIssuer st did config now (some msg)).1.trusted = false
        ∧ ((Trust.isTrustedIssuer st did config now (some msg)).1.reason).isSome = true)
    ∧ ((Trust.isTrustedIssuer st did config now none).1.reason).isSome = true := by
  refine ⟨?_, fun msg => ⟨rfl, rfl⟩, isTrustedIssuer_reason_isSome st did config now none⟩
  have hiff : (Trust.isTrustedIssuer st did config now none).1.trusted = true ↔
      ∃ a ∈ st.mockAnchors, a.did = did ∧ Trust.anchorIsValid a now = true := by
    unfold Trust.isTrustedIssuer
    cases hfind : (st.trustAnchorCache.find? (fun p => decide (p.1 = did))) with
    | none =>
      simpa [hfind] using
        isTrustedIssuerUncached_trusted_iff st did config now hmock huniq
    | some p =>
      have hpmem : p ∈ st.trustAnchorCache := List.mem_of_find?_eq_some hfind
      have hpdid : p.1 = did := by simpa using List.find?_some hfind
      obtain ⟨hamem, hadid⟩ := hcoh p hpmem
      simp only [hfind, Option.map_some']
      split
      · constructor
        · intro htrust
          exact ⟨p.2.anchor, hamem, hadid.trans hpdid, htrust⟩
        · rintro ⟨b, hb, hbdid, hbvalid⟩
          have : p.2.anchor = b :=
            huniq p.2.anchor hamem b hb ((hadid.trans hpdid).trans hbdid.symm)
          rw [this]
          exact hbvalid
      · exact isTrustedIssuerUncached_trusted_iff st did config now hmock huniq
  rw [hiff]
  constructor
  · rintro ⟨a, ha, hdid, hvalid⟩
    exact ⟨a, ha, hdid, (anchorIsValid_iff a now).mp hvalid⟩
  · rintro ⟨a, ha, hdid, hstat, huntil⟩
    exact ⟨a, ha, hdid, (anchorIsValid_iff a now).mpr ⟨hstat, huntil⟩⟩

/-- C5 witness: an active never-expiring anchor is reported trusted;
an exception path yields `trusted: false` with a reason. -/
theorem isTrustedIssuer_active_anchor_iff_witness :
    (Trust.isTrustedIssuer
      { trustAnchorCache := [],
        mockAnchors := [{ did := "did:web:identity.foundation",
                          name := "Decentralized Identity Foundation",
                          status := Trust.AnchorStatus.active,
                          validFrom := 0, validUntil := none }] }
      "did:web:identity.foundation"
      { enableMockTrustAnchors := true, cacheTTL := none } 1000 none).1.trusted = true
    ∧ (Trust.isTrustedIssuer
      { trustAnchorCache := [],
        mockAnchors := [{ did := "did:web:identity.foundation",
                          name := "Decentralized Identity Foundation",
                          status := Trust.AnchorStatus.active,
                          validFrom := 0, validUntil := none }] }
      "did:web:identity.foundation"
      { enableMockTrustAnchors := true, cacheTTL := none } 1000 (some "boom")).1.trusted = false := by
  constructor
  · exact (isTrustedIssuer_active_anchor_iff
      { trustAnchorCache := [],
        mockAnchors := [{ did := "did:web:identity.foundation",
                          name := "Decentralized Identity Foundation",
                          status := Trust.AnchorStatus.active,
                          validFrom := 0, validUntil := none }] }
      "did:web:identity.foundation"
      { enableMockTrustAnchors := true, cacheTTL := none } 1000 rfl
      (by intro p hp; cases hp) (by
        intro a ha b hb _
        rw [List.mem_singleton] at ha hb
        rw [ha, hb])).1.mpr
      ⟨_, List.mem_singleton_self _, rfl, rfl, Or.inl rfl⟩
  · exact ((isTrustedIssuer_active_anchor_iff
      { trustAnchorCache := [],
        mockAnchors := [{ did := "did:web:identity.foundation",
                          name := "Decentralized Identity Foundation",
                          status := Trust.AnchorStatus.active,
                          validFrom := 0, validUntil := none }] }
      "did:web:identity.foundation"
      { enableMockTrustAnchors := true, cacheTTL := none } 1000 rfl
      (by intro p hp; cases hp) (by
        intro a ha b hb _
        rw [List.mem_singleton] at ha hb
        rw [ha, hb])).2.1 "boom").1

/-- A matched descriptor id always comes from a descriptor of the list
that has a mapping entry. -/
theorem evalDescriptors_mem_matched (descriptorMap : List PD.DescriptorMapEntry)
    (credentials : List PD.VerifiableCredential) (descs : List PD.InputDescriptor)
    (x : String)
    (hx : x ∈ (PD.evalDescriptors descriptorMap credentials descs).2) :
    ∃ d ∈ descs, d.id = x ∧
      (descriptorMap.find? (fun m => m.id = d.id)).isSome = true := by
  induction descs with
  | nil => cases hx
  | cons d0 rest ih =>
    unfold PD.evalDescriptors at hx
    cases hfind : descriptorMap.find? (fun m => decide (m.id = d0.id)) with
    | none =>
      rw [hfind] at hx
      dsimp only at hx
      by_cases hopt : PD.someFieldOptional d0.fields = true
      · rw [if_pos hopt] at hx
        obtain ⟨d, hd, hdx, hsome⟩ := ih hx
        exact ⟨d, List.mem_cons_of_mem d0 hd, hdx, hsome⟩
      · rw [if_neg hopt] at hx
        dsimp only at hx
        obtain ⟨d, hd, hdx, hsome⟩ := ih hx
        exact ⟨d, List.mem_cons_of_mem d0 hd, hdx, hsome⟩
    | some mapping =>
      rw [hfind] at hx
      dsimp only at hx
      by_cases hmiss : PD.credentialMissing credentials
          (PD.extractIndexFromPath mapping.path) = true
      · rw [if_pos hmiss] at hx
        dsimp only at hx
        obtain ⟨d, hd, hdx, hsome⟩ := ih hx
        exact ⟨d, List.mem_cons_of_mem d0 hd, hdx, hsome⟩
      · rw [if_neg hmiss] at hx
        dsimp only at hx
        rcases List.mem_cons.mp hx with heq | htail
        · exact ⟨d0, List.mem_cons_self d0 rest, heq.symm, by rw [hfind]; rfl⟩
        · obtain ⟨d, hd, hdx, hsome⟩ := ih htail
          exact ⟨d, List.mem_cons_of_mem d0 hd, hdx, hsome⟩

/-- An unmapped descriptor with no optional field forces an error
entry. -/
theorem evalDescriptors_error_of_unmapped (descriptorMap : List PD.DescriptorMapEntry)
    (credentials : List PD.VerifiableCredential) (descs : List PD.InputDescriptor)
    (d : PD.InputDescriptor) (hd : d ∈ descs)
    (hunmapped : descriptorMap.find? (fun m => m.id = d.id) = none)
    (hnoopt : PD.someFieldOptional d.fields = false) :
    (PD.evalDescriptors descriptorMap credentials descs).1 ≠ [] := by
  induction descs with
  | nil => cases hd
  | cons d0 rest ih =>
    unfold PD.evalDescriptors
    rcases List.mem_cons.mp hd with heq | htail
    · subst heq
      rw [hunmapped, hnoopt]
      simp
    · cases hfind : descriptorMap.find? (fun m => decide (m.id = d0.id)) with
      | none =>
        dsimp only
        by_cases hopt : PD.someFieldOptional d0.fields = true
        · rw [if_pos hopt]
          exact ih htail
        · rw [if_neg hopt]
          simp
      | some mapping =>
        dsimp only
        by_cases hmiss : PD.credentialMissing credentials
            (PD.extractIndexFromPath mapping.path) = true
        · rw [if_pos hmiss]
          simp
        · rw [if_neg hmiss]
          dsimp only
          exact ih htail

/-- When every unmapped descriptor is wholly optional with a nonempty
field list and every mapped descriptor resolves, the loop pushes no
error and matches every descriptor that has a mapping — in particular
every descriptor that is not wholly optional. -/
theorem evalDescriptors_all_good (descriptorMap : List PD.DescriptorMapEntry)
    (credentials : List PD.VerifiableCredential) (descs : List PD.InputDescriptor)
    (h1 : ∀ d ∈ descs, descriptorMap.find? (fun m => m.id = d.id) = none →
      (PD.someFieldOptional d.fields = true ∧ PD.everyFieldOptionalJS d.fields = true))
    (h2 : ∀ d ∈ descs, ∀ m, descriptorMap.find? (fun m2 => m2.id = d.id) = some m →
      PD.credentialMissing credentials (PD.extractIndexFromPath m.path) = false) :
    (PD.evalDescriptors descriptorMap credentials descs).1 = []
    ∧ ∀ d ∈ descs, PD.everyFieldOptionalJS d.fields = false →
        d.id ∈ (PD.evalDescriptors descriptorMap credentials descs).2 := by
  induction descs with
  | nil => exact ⟨rfl, fun d hd => (List.not_mem_nil d hd).elim⟩
  | cons d0 rest ih =>
    have h1r : ∀ d ∈ rest, descriptorMap.find? (fun m => m.id = d.id) = none →
        (PD.someFieldOptional d.fields = true ∧ PD.everyFieldOptionalJS d.fields = true) :=
      fun d hd => h1 d (List.mem_cons_of_mem d0 hd)
    have h2r : ∀ d ∈ rest, ∀ m, descriptorMap.find? (fun m2 => m2.id = d.id) = some m →
        PD.credentialMissing credentials (PD.extractIndexFromPath m.path) = false :=
      fun d hd => h2 d (List.mem_cons_of_mem d0 hd)
    obtain ⟨ihnil, ihmem⟩ := ih h1r h2r
    unfold PD.evalDescriptors
    cases hfind : descriptorMap.find? (fun m => decide (m.id = d0.id)) with
    | none =>
      dsimp only
      obtain ⟨hsome, hevery⟩ := h1 d0 (List.mem_cons_self d0 rest) hfind
      rw [hsome]
      simp only [if_true]
      refine ⟨ihnil, fun d hd hreq => ?_⟩
      rcases List.mem_cons.mp hd with heq | htail
      · rw [heq] at hreq
        rw [hreq] at hevery
        cases hevery
      · exact ihmem d htail hreq
    | some mapping =>
      dsimp only
      rw [h2 d0 (List.mem_cons_self d0 rest) mapping hfind]
      simp only [if_false, Bool.false_eq_true]
      refine ⟨ihnil, fun d hd hreq => ?_⟩
      rcases List.mem_cons.mp hd with heq | htail
      · rw [heq]
        exact List.mem_cons_self d0.id _
      · exact List.mem_cons_of_mem d0.id (ihmem d htail hreq)

/-- `evaluatePresentationSubmission` unfolded past the submission and
definition-id guards. -/
theorem evaluatePresentationSubmission_unfold (vp : PD.VerifiablePresentation)
    (pd : PD.PresentationDefinition) (sub : PD.PresentationSubmission)
    (hsub : vp.presentation_submission = some sub)
    (hid : sub.definition_id = pd.id) :
    PD.evaluatePresentationSubmission vp pd =
      (if (if (PD.requiredDescriptors pd).all
              (fun d => (PD.evalDescriptors sub.descriptor_map vp.credentials
                  pd.input_descriptors).2.contains d.id)
            then (PD.evalDescriptors sub.descriptor_map vp.credentials
                pd.input_descriptors).1
            else (PD.evalDescriptors sub.descriptor_map vp.credentials
                pd.input_descriptors).1
              ++ ["Not all required descriptors are satisfied"]).isEmpty
        then ⟨true, [],
          (PD.evalDescriptors sub.descriptor_map vp.credentials pd.input_descriptors).2⟩
        else ⟨false,
          (if (PD.requiredDescriptors pd).all
              (fun d => (PD.evalDescriptors sub.descriptor_map vp.credentials
                  pd.input_descriptors).2.contains d.id)
            then (PD.evalDescriptors sub.descriptor_map vp.credentials
                pd.input_descriptors).1
            else (PD.evalDescriptors sub.descriptor_map vp.credentials
                pd.input_descriptors).1
              ++ ["Not all required descriptors are satisfied"]),
          (PD.evalDescriptors sub.descriptor_map vp.credentials pd.input_descriptors).2⟩) := by
  unfold PD.evaluatePresentationSubmission
  rw [hsub]
  dsimp only
  rw [if_neg (show ¬(sub.definition_id ≠ pd.id) from fun hne => hne hid)]

/-- C2 counterexample: the submission matches the definition id and
the only non-optional descriptor (`d_req`) is mapped to an existing
credential, yet the result is `valid := false` (the mapped optional
descriptor `d_optC` fails to resolve) and `matchedDescriptors` also
holds the optional `d_optB`, so it does not equal the non-optional
descriptor set. -/
theorem evalSubmission_counterexample_optional_mapped :
    (Examples.subMixed.definition_id = Examples.pdMixed.id
      ∧ (PD.requiredDescriptors Examples.pdMixed).map (fun d => d.id) = ["d_req"]
      ∧ ∀ d ∈ PD.requiredDescriptors Examples.pdMixed,
          ∃ m ∈ Examples.subMixed.descriptor_map, m.id = d.id ∧
            PD.credentialMissing Examples.vpMixed.credentials
              (PD.extractIndexFromPath m.path) = false)
    ∧ (PD.evaluatePresentationSubmission Examples.vpMixed Examples.pdMixed).valid = false
    ∧ "d_optB" ∈
        (PD.evaluatePresentationSubmission Examples.vpMixed Examples.pdMixed).matchedDescriptors
    ∧ "d_optB" ∉ (PD.requiredDescriptors Examples.pdMixed).map (fun d => d.id) := by
  decide

/-- C2 (amended): when the submission's definition id matches, every
descriptor without a mapping is wholly optional with a nonempty field
list, and every mapped descriptor's first mapping resolves to an
existing credential, evaluation returns `valid: true` and
`matchedDescriptors` contains every non-optional descriptor identifier
(it may also contain resolved optional ones). -/
theorem evalSubmission_valid_of_mapped_resolving (vp : PD.VerifiablePresentation)
    (pd : PD.PresentationDefinition) (sub : PD.PresentationSubmission)
    (hsub : vp.presentation_submission = some sub)
    (hid : sub.definition_id = pd.id)
    (h1 : ∀ d ∈ pd.input_descriptors,
      sub.descriptor_map.find? (fun m => m.id = d.id) = none →
      (PD.someFieldOptional d.fields = true ∧ PD.everyFieldOptionalJS d.fields = true))
    (h2 : ∀ d ∈ pd.input_descriptors, ∀ m,
      sub.descriptor_map.find? (fun m2 => m2.id = d.id) = some m →
      PD.credentialMissing vp.credentials (PD.extractIndexFromPath m.path) = false) :
    (PD.evaluatePresentationSubmission vp pd).valid = true
    ∧ ∀ d ∈ pd.input_descriptors, PD.everyFieldOptionalJS d.fields = false →
        d.id ∈ (PD.evaluatePresentationSubmission vp pd).matchedDescriptors := by
  obtain ⟨hnil, hmem⟩ :=
    evalDescriptors_all_good sub.descriptor_map vp.credentials pd.input_descriptors h1 h2
  have hall : ((PD.requiredDescriptors pd).all
      (fun d => (PD.evalDescriptors sub.descriptor_map vp.credentials
          pd.input_descriptors).2.contains d.id)) = true := by
    rw [List.all_eq_true]
    intro d hd
    rw [PD.requiredDescriptors, List.mem_filter] at hd
    obtain ⟨hdmem, hdreq⟩ := hd
    have hev : PD.everyFieldOptionalJS d.fields = false := by
      cases hcase : PD.everyFieldOptionalJS d.fields
      · rfl
      · rw [hcase] at hdreq
        cases hdreq
    have := hmem d hdmem hev
    simpa using this
  rw [evaluatePresentationSubmission_unfold vp pd sub hsub hid, hall]
  rw [if_pos rfl, hnil]
  exact ⟨rfl, fun d hd hev => hmem d hd hev⟩

/-- C2 witness: a mapped required descriptor resolving to credential 0
plus an unmapped wholly-optional descriptor gives `valid: true` with
the required descriptor matched. -/
theorem evalSubmission_valid_of_mapped_resolving_witness :
    (PD.evaluatePresentationSubmission Examples.vpWitness Examples.pdWitness).valid = true
    ∧ "id_credential" ∈
        (PD.evaluatePresentationSubmission Examples.vpWitness Examples.pdWitness).matchedDescriptors := by
  have h := evalSubmission_valid_of_mapped_resolving Examples.vpWitness Examples.pdWitness
    (Examples.vpWitness.presentation_submission.getD ⟨"", "", []⟩)
    (by decide) (by decide) (by decide) (by decide)
  exact ⟨h.1, h.2 { id := "id_credential", fields := some [{ optional := none }] }
    (by decide) (by decide)⟩

/-- C3 counterexample: a descriptor whose `fields` list is empty has
all its fields (vacuously) optional, yet with no mapping entry the
evaluation still records a mismatch and reports `valid := false`. -/
theorem evalSubmission_counterexample_empty_fields :
    (∀ d ∈ Examples.pdEmptyFields.input_descriptors, ∀ l, d.fields = some l →
      ∀ f ∈ l, f.optional = some true)
    ∧ (∀ d ∈ Examples.pdEmptyFields.input_descriptors,
        (Examples.vpEmptyFields.presentation_submission.getD
            ⟨"", "", []⟩).descriptor_map.find? (fun m => m.id = d.id) = none)
    ∧ (PD.evaluatePresentationSubmission Examples.vpEmptyFields Examples.pdEmptyFields).valid
        = false
    ∧ (PD.evaluatePresentationSubmission Examples.vpEmptyFields Examples.pdEmptyFields).errors
        ≠ [] := by
  decide

/-- C3 (amended): a descriptor absent from the descriptor map is never
matched; it forces `valid: false` unless its field list is present,
nonempty and wholly optional (`some` and `every` of the JS code both
true), and when every field is optional it does not join the required
set. -/
theorem evalSubmission_unmapped_descriptor (vp : PD.VerifiablePresentation)
    (pd : PD.PresentationDefinition) (sub : PD.PresentationSubmission)
    (d : PD.InputDescriptor)
    (hsub : vp.presentation_submission = some sub)
    (hid : sub.definition_id = pd.id)
    (hmem : d ∈ pd.input_descriptors)
    (hunmapped : sub.descriptor_map.find? (fun m => m.id = d.id) = none) :
    d.id ∉ (PD.evaluatePresentationSubmission vp pd).matchedDescriptors
    ∧ (¬(PD.someFieldOptional d.fields = true ∧ PD.everyFieldOptionalJS d.fields = true) →
        (PD.evaluatePresentationSubmission vp pd).valid = false)
    ∧ (PD.everyFieldOptionalJS d.fields = true → d ∉ PD.requiredDescriptors pd) := by
  have hnotm : d.id ∉
      (PD.evalDescriptors sub.descriptor_map vp.credentials pd.input_descriptors).2 := by
    intro hmm
    obtain ⟨d2, hd2, hdid, hsome⟩ :=
      evalDescriptors_mem_matched sub.descriptor_map vp.credentials
        pd.input_descriptors d.id hmm
    rw [hdid] at hsome
    rw [hunmapped] at hsome
    cases hsome
  have happ : ∀ (l : List String) (s : String), (l ++ [s]).isEmpty = false := by
    intro l s
    cases l <;> rfl
  refine ⟨?_, ?_, ?_⟩
  · rw [evaluatePresentationSubmission_unfold vp pd sub hsub hid]
    split <;> split <;> exact hnotm
  · intro hnot
    cases hcase : PD.someFieldOptional d.fields with
    | false =>
      have hne := evalDescriptors_error_of_unmapped sub.descriptor_map vp.credentials
        pd.input_descriptors d hmem hunmapped hcase
      have hnonempty : ∀ (l : List String), l ≠ [] → l.isEmpty = false := by
        intro l hl
        cases l with
        | nil => exact absurd rfl hl
        | cons a t => rfl
      rw [evaluatePresentationSubmission_unfold vp pd sub hsub hid]
      have hEE : ∀ (b : Bool),
          (if b = true then
              (PD.evalDescriptors sub.descriptor_map vp.credentials pd.input_descriptors).1
            else (PD.evalDescriptors sub.descriptor_map vp.credentials
                pd.input_descriptors).1
              ++ ["Not all required descriptors are satisfied"]).isEmpty = false := by
        intro b
        cases b
        · exact happ _ _
        · exact hnonempty _ hne
      rw [hEE]
      rfl
    | true =>
      have hev : PD.everyFieldOptionalJS d.fields = false := by
        cases hcase2 : PD.everyFieldOptionalJS d.fields
        · rfl
        · exact absurd ⟨hcase, hcase2⟩ hnot
      have hdreq : d ∈ PD.requiredDescriptors pd :=
        List.mem_filter.mpr ⟨hmem, by rw [hev]; rfl⟩
      have hallf : ((PD.requiredDescriptors pd).all
          (fun d2 => (PD.evalDescriptors sub.descriptor_map vp.credentials
              pd.input_descriptors).2.contains d2.id)) = false := by
        cases hcall : ((PD.requiredDescriptors pd).all
            (fun d2 => (PD.evalDescriptors sub.descriptor_map vp.credentials
                pd.input_descriptors).2.contains d2.id)) with
        | false => rfl
        | true =>
          rw [List.all_eq_true] at hcall
          have := hcall d hdreq
          exact absurd (by simpa using this) hnotm
      rw [evaluatePresentationSubmission_unfold vp pd sub hsub hid, hallf]
      simp only [Bool.false_eq_true, if_false]
      rw [happ]
      rfl
  · intro hev hdin
    rw [PD.requiredDescriptors, List.mem_filter, hev] at hdin
    cases hdin.2

/-- C3 witness: a required descriptor absent from the map is not
matched and makes the result invalid. -/
theorem evalSubmission_unmapped_descriptor_witness :
    "d_missing" ∉
      (PD.evaluatePresentationSubmission Examples.vpUnmapped Examples.pdUnmapped).matchedDescriptors
    ∧ (PD.evaluatePresentationSubmission Examples.vpUnmapped Examples.pdUnmapped).valid = false := by
  have h := evalSubmission_unmapped_descriptor Examples.vpUnmapped Examples.pdUnmapped
    (Examples.vpUnmapped.presentation_submission.getD ⟨"", "", []⟩)
    { id := "d_missing", fields := some [{ optional := none }] }
    (by decide) (by decide) (by decide) (by decide)
  exact ⟨h.1, h.2.1 (by decide)⟩

/-- Unfolding equation of the `age_over_` key scan on a cons cell. -/
theorem findHigherAgeClaim_cons_eq (claims : List (String × ClaimValue)) (minAge : Nat)
    (k0 : String) (v0 : ClaimValue) (rest : List (String × ClaimValue)) :
    SDJWT.findHigherAgeClaim claims minAge ((k0, v0) :: rest) =
      (if strStartsWith k0 "age_over_" = true then
        match parseLeadingNat (strDrop k0 9) with
        | some claimAge =>
          if minAge ≤ claimAge ∧ lookupClaim claims k0 = some (ClaimValue.boolVal true) then
            some claimAge
          else SDJWT.findHigherAgeClaim claims minAge rest
        | none => SDJWT.findHigherAgeClaim claims minAge rest
      else SDJWT.findHigherAgeClaim claims minAge rest) := rfl

/-- Soundness of the `age_over_` key scan: a returned threshold comes
from a key of the scanned list whose parsed value is at least the
queried age and whose claim value is `true`. -/
theorem findHigherAgeClaim_sound (claims : List (String × ClaimValue)) (minAge : Nat)
    (entries : List (String × ClaimValue)) (M : Nat)
    (h : SDJWT.findHigherAgeClaim claims minAge entries = some M) :
    minAge ≤ M ∧ ∃ k, strStartsWith k "age_over_" = true
      ∧ parseLeadingNat (strDrop k 9) = some M
      ∧ lookupClaim claims k = some (ClaimValue.boolVal true) := by
  induction entries with
  | nil => cases h
  | cons e rest ih =>
    obtain ⟨k0, v0⟩ := e
    rw [findHigherAgeClaim_cons_eq] at h
    by_cases hstart : strStartsWith k0 "age_over_" = true
    · rw [if_pos hstart] at h
      cases hparse : parseLeadingNat (strDrop k0 9) with
      | none =>
        rw [hparse] at h
        exact ih h
      | some a =>
        rw [hparse] at h
        dsimp only at h
        by_cases hcond : minAge ≤ a ∧ lookupClaim claims k0 = some (ClaimValue.boolVal true)
        · rw [if_pos hcond] at h
          cases h
          exact ⟨hcond.1, k0, hstart, hparse, hcond.2⟩
        · rw [if_neg hcond] at h
          exact ih h
    · rw [if_neg hstart] at h
      exact ih h

/-- Completeness of the `age_over_` key scan: when it returns nothing,
no scanned key is an applicable true threshold claim. -/
theorem findHigherAgeClaim_complete (claims : List (String × ClaimValue)) (minAge : Nat)
    (entries : List (String × ClaimValue))
    (h : SDJWT.findHigherAgeClaim claims minAge entries = none) :
    ∀ k v, (k, v) ∈ entries → strStartsWith k "age_over_" = true →
      ∀ M, parseLeadingNat (strDrop k 9) = some M → minAge ≤ M →
        lookupClaim claims k ≠ some (ClaimValue.boolVal true) := by
  induction entries with
  | nil => intro k v hkv; cases hkv
  | cons e rest ih =>
    obtain ⟨k0, v0⟩ := e
    intro k v hkv hstart M hparse hM
    rw [findHigherAgeClaim_cons_eq] at h
    rcases List.mem_cons.mp hkv with heq | htail
    · have hk0 : k = k0 := congrArg Prod.fst heq
      subst hk0
      rw [if_pos hstart, hparse] at h
      dsimp only at h
      by_cases hcond : minAge ≤ M ∧ lookupClaim claims k = some (ClaimValue.boolVal true)
      · rw [if_pos hcond] at h
        cases h
      · rw [if_neg hcond] at h
        intro hlook
        exact hcond ⟨hM, hlook⟩
    · by_cases hstart0 : strStartsWith k0 "age_over_" = true
      · rw [if_pos hstart0] at h
        cases hparse0 : parseLeadingNat (strDrop k0 9) with
        | none =>
          rw [hparse0] at h
          exact ih h k v htail hstart M hparse hM
        | some a =>
          rw [hparse0] at h
          dsimp only at h
          by_cases hcond : minAge ≤ a ∧ lookupClaim claims k0 = some (ClaimValue.boolVal true)
          · rw [if_pos hcond] at h
            cases h
          · rw [if_neg hcond] at h
            exact ih h k v htail hstart M hparse hM
      · rw [if_neg hstart0] at h
        exact ih h k v htail hstart M hparse hM

/-- C8: on a token that passes validation, `verifyAgeOver` applies, in
order: the explicit `age_over_N` boolean claim (reporting `ageOver =
N`); otherwise the first disclosed `age_over_M` claim with `M ≥ N` that
is `true` (reporting `ageOver = M`, and such a claim exists exactly
when the scan finds one); otherwise the age computed from a raw
birthdate claim — used only when no threshold claim applies. -/
theorem verifyAgeOver_threshold_precedence (validation : SDJWT.SDJWTValidationResult)
    (minAge : Nat) (today : SimpleDate) (claims : List (String × ClaimValue))
    (hv : validation.valid = true)
    (hc : validation.disclosedClaims = some claims) :
    (lookupClaim claims ("age_over_" ++ toString minAge) = some (ClaimValue.boolVal true) →
      SDJWT.verifyAgeOver validation minAge today =
        ⟨true, some (minAge : Int), none⟩)
    ∧ (lookupClaim claims ("age_over_" ++ toString minAge) ≠ some (ClaimValue.boolVal true) →
        ∀ M, SDJWT.findHigherAgeClaim claims minAge claims = some M →
          SDJWT.verifyAgeOver validation minAge today = ⟨true, some (M : Int), none⟩
          ∧ minAge ≤ M
          ∧ ∃ k, strStartsWith k "age_over_" = true
              ∧ parseLeadingNat (strDrop k 9) = some M
              ∧ lookupClaim claims k = some (ClaimValue.boolVal true))
    ∧ (lookupClaim claims ("age_over_" ++ toString minAge) ≠ some (ClaimValue.boolVal true) →
        SDJWT.findHigherAgeClaim claims minAge claims = none →
        (∀ k v, (k, v) ∈ claims → strStartsWith k "age_over_" = true →
          ∀ M, parseLeadingNat (strDrop k 9) = some M → minAge ≤ M →
            lookupClaim claims k ≠ some (ClaimValue.boolVal true))
        ∧ ∀ v, SDJWT.jsOrClaim (lookupClaim claims "birth_date")
              (lookupClaim claims "birthdate") = some v →
            v.truthy = true →
            ∀ birth, parseClaimDate v = some birth →
              (minAge : Int) ≤ calculateAge today birth →
              SDJWT.verifyAgeOver validation minAge today =
                ⟨true, some (calculateAge today birth), none⟩) := by
  have hred : SDJWT.verifyAgeOver validation minAge today =
      (if lookupClaim claims ("age_over_" ++ toString minAge)
            = some (ClaimValue.boolVal true) then
        (⟨true, some (minAge : Int), none⟩ : SDJWT.AgeOverResult)
      else
        match SDJWT.findHigherAgeClaim claims minAge claims with
        | some claimAge => ⟨true, some (claimAge : Int), none⟩
        | none =>
          match SDJWT.jsOrClaim (lookupClaim claims "birth_date")
              (lookupClaim claims "birthdate") with
          | some v =>
            if v.truthy = true then
              match parseClaimDate v with
              | some birth =>
                if (minAge : Int) ≤ calculateAge today birth then
                  ⟨true, some (calculateAge today birth), none⟩
                else
                  ⟨false, none, some ("Age " ++ toString (calculateAge today birth)
                      ++ " is below minimum " ++ toString minAge)⟩
              | none => ⟨false, none, some ("Age NaN is below minimum " ++ toString minAge)⟩
            else
              ⟨false, none, some ("No age_over_" ++ toString minAge
                  ++ " claim found in disclosed claims")⟩
          | none =>
            ⟨false, none, some ("No age_over_" ++ toString minAge
                ++ " claim found in disclosed claims")⟩) := by
    unfold SDJWT.verifyAgeOver
    rw [hv, hc]
    rfl
  refine ⟨?_, ?_, ?_⟩
  · intro hexact
    rw [hred, if_pos hexact]
  · intro hne M hM
    have hsound := findHigherAgeClaim_sound claims minAge claims M hM
    refine ⟨?_, hsound.1, hsound.2⟩
    rw [hred, if_neg hne, hM]
  · intro hne hnone
    refine ⟨findHigherAgeClaim_complete claims minAge claims hnone, ?_⟩
    intro v hjs htruthy birth hbirth hage
    rw [hred, if_neg hne, hnone, hjs]
    dsimp only
    rw [if_pos htruthy, hbirth]
    dsimp only
    rw [if_pos hage]

/-- C8 witness: a validated token lacking `age_over_18` but carrying
`age_over_21: true`, queried with minimum age 18, verifies with
`ageOver: 21`. -/
theorem verifyAgeOver_threshold_precedence_witness :
    SDJWT.verifyAgeOver
      { valid := true, errors := [], warnings := [],
        issuer := some "did:example:issuer",
        disclosedClaims := some [("age_over_21", ClaimValue.boolVal true)],
        issuanceDate := none, expirationDate := none,
        trusted := some true, disclosureCount := some 1 } 18 ⟨2026, 10, 11⟩ =
      { verified := true, ageOver := some 21, error := none } :=
  ((verifyAgeOver_threshold_precedence
      { valid := true, errors := [], warnings := [],
        issuer := some "did:example:issuer",
        disclosedClaims := some [("age_over_21", ClaimValue.boolVal true)],
        issuanceDate := none, expirationDate := none,
        trusted := some true, disclosureCount := some 1 } 18 ⟨2026, 10, 11⟩
      [("age_over_21", ClaimValue.boolVal true)] rfl rfl).2.1
    (by decide) 21 (by decide)).1

/-- C9: when an SD-JWT decodes, yields an issuer, resolves to a
document with a public key, passes signature verification and the
expiry check, a disclosed-claim count below a positive
`requireMinimumDisclosures` only adds the shortfall warning: the
result is still `valid: true`. -/
theorem validateSDJWT_min_disclosure_warning_only
    (d : SDJWT.DecodedSDJWT) (didResolution : DID.DIDResolutionResult)
    (ver : SDJWT.JWTVerifyResult) (trustCheck : Trust.TrustCheckResult)
    (options : SDJWT.SDJWTValidationOptions) (now : Int)
    (issuerDID : String) (doc : DID.DIDDocument) (k : DID.JWK) (m : Nat)
    (hiss : jsOrStr d.jwtPayloadIss (jsOrStr d.jwtPayloadIssuer d.payloadIss)
      = some issuerDID)
    (hsucc : didResolution.success = true)
    (hdoc : didResolution.document = some doc)
    (hkey : DID.extractPublicKeyFromDIDSD doc = some k)
    (hver : ver.valid = true)
    (hexp : SDJWT.sdExpirationErrors (options.checkExpiration.getD true)
        (ver.payload.getD ⟨none, none⟩) now = [])
    (hm : options.requireMinimumDisclosures = some m)
    (hm0 : m ≠ 0)
    (hcount : d.disclosures.length < m) :
    (SDJWT.validateSDJWT (.ok d) didResolution ver trustCheck options now).valid = true
    ∧ ("Only " ++ toString d.disclosures.length
        ++ " claims disclosed, required minimum: " ++ toString m)
      ∈ (SDJWT.validateSDJWT (.ok d) didResolution ver trustCheck options now).warnings
    ∧ (SDJWT.validateSDJWT (.ok d) didResolution ver trustCheck options now).disclosureCount
      = some d.disclosures.length := by
  unfold SDJWT.validateSDJWT
  dsimp only
  rw [hiss]
  dsimp only
  rw [hsucc, hdoc]
  simp only [Option.isNone_some, Bool.not_true, Bool.or_self, Bool.or_false,
    Bool.false_or, Bool.false_eq_true, if_false, Option.getD_some]
  rw [hkey]
  dsimp only
  rw [hver, hm, hexp]
  simp only [Bool.not_true, Bool.false_eq_true, if_false, List.isEmpty_nil]
  rw [if_pos ⟨hm0, hcount⟩]
  exact ⟨trivial, List.mem_append_left _ (List.mem_cons_self _ _), trivial⟩

/-- C9 witness: a concrete validated SD-JWT with one disclosed claim
against a required minimum of three stays valid with the warning. -/
theorem validateSDJWT_min_disclosure_warning_only_witness :
    (SDJWT.validateSDJWT (.ok Examples.sdDecoded) Examples.sdResolution
      Examples.sdVerify Examples.sdTrust Examples.sdOptions 0).valid = true
    ∧ ("Only 1 claims disclosed, required minimum: 3")
      ∈ (SDJWT.validateSDJWT (.ok Examples.sdDecoded) Examples.sdResolution
          Examples.sdVerify Examples.sdTrust Examples.sdOptions 0).warnings := by
  have h := validateSDJWT_min_disclosure_warning_only
    Examples.sdDecoded Examples.sdResolution Examples.sdVerify Examples.sdTrust
    Examples.sdOptions 0 "did:example:issuer" Examples.sdDoc "jwk" 3
    rfl rfl rfl rfl rfl rfl rfl (by decide) (by decide)
  exact ⟨h.1, h.2.1⟩

/-- C10: a JWT credential that decodes, resolves its issuer DID to a
key, passes signature verification, carries the required structural
fields and passes the expiry check is reported `valid: true` by
`validateVC` even with `checkTrust` enabled and an untrusted issuer:
the trust failure surfaces only as `trusted: false` plus a warning,
never as an error. -/
theorem validateVC_untrusted_warning_only
    (p : VC.VCPayload) (didResolution : DID.DIDResolutionResult)
    (ver : VC.VCVerifyResult) (trustCheck : Trust.TrustCheckResult)
    (options : VC.VCValidationOptions) (dateParse : String → Option Int) (now : Int)
    (issuerDID : String) (doc : DID.DIDDocument) (k : DID.JWK) (p2 : VC.VCPayload)
    (hiss : jsOrStr p.iss (jsOrStr (p.vc.bind (fun c => c.issuer)) p.issuer)
      = some issuerDID)
    (hsucc : didResolution.success = true)
    (hdoc : didResolution.document = some doc)
    (hkey : DID.extractPublicKeyFromDID doc = some k)
    (hver : ver.valid = true)
    (hpay : ver.payload = some p2)
    (hctx : (p2.vc.getD p2.self).hasContext = true)
    (htype : VC.strOrArrTruthy (p2.vc.getD p2.self).typeField = true)
    (hsubj : (p2.vc.getD p2.self).credentialSubject.isNone = false)
    (hexp : VC.vcExpirationErrors (options.checkExpiration.getD true)
        (VC.expirationDateOf (p2.vc.getD p2.self) p2) dateParse now = [])
    (htrustopt : options.checkTrust.getD true = true)
    (htrust : trustCheck.trusted = false) :
    (VC.validateVC (.ok p) didResolution ver trustCheck options dateParse now).valid = true
    ∧ (VC.validateVC (.ok p) didResolution ver trustCheck options dateParse now).trusted
      = some false
    ∧ ("Issuer not in trust anchor list: " ++ (trustCheck.reason.getD "Unknown reason"))
      ∈ (VC.validateVC (.ok p) didResolution ver trustCheck options dateParse now).warnings := by
  unfold VC.validateVC
  dsimp only
  rw [hiss]
  dsimp only
  rw [hsucc, hdoc]
  simp only [Option.isNone_some, Bool.not_true, Bool.or_self, Bool.or_false,
    Bool.false_or, Bool.false_eq_true, if_false, Option.getD_some]
  rw [hkey]
  dsimp only
  rw [hver, hpay]
  dsimp only
  rw [hctx, htype, hsubj, hexp, htrustopt, htrust]
  simp only [Bool.not_true, Bool.not_false, Bool.false_eq_true, if_false,
    List.nil_append, List.append_nil, and_true, if_true, List.isEmpty_nil]
  refine ⟨trivial, trivial, ?_⟩
  exact List.mem_append_left _ (List.mem_append_right _ (List.mem_cons_self _ _))

/-- C10 witness: a structurally valid, unexpired credential from an
issuer outside the trust-anchor list validates with `trusted: false`
and the trust warning. -/
theorem validateVC_untrusted_warning_only_witness :
    (VC.validateVC (.ok Examples.vcPayloadX)
      Examples.sdResolution Examples.vcVerifyX Examples.vcTrustX
      Examples.vcOptionsX (fun _ => none) 0).valid = true
    ∧ (VC.validateVC (.ok Examples.vcPayloadX)
        Examples.sdResolution Examples.vcVerifyX Examples.vcTrustX
        Examples.vcOptionsX (fun _ => none) 0).trusted = some false
    ∧ ("Issuer not in trust anchor list: Not in trust anchor list")
      ∈ (VC.validateVC (.ok Examples.vcPayloadX)
          Examples.sdResolution Examples.vcVerifyX Examples.vcTrustX
          Examples.vcOptionsX (fun _ => none) 0).warnings := by
  have h := validateVC_untrusted_warning_only
    Examples.vcPayloadX Examples.sdResolution Examples.vcVerifyX Examples.vcTrustX
    Examples.vcOptionsX (fun _ => none) 0 "did:example:issuer" Examples.sdDoc "jwk"
    Examples.vcPayloadX rfl rfl rfl rfl rfl rfl rfl rfl rfl rfl rfl rfl
  exact h

end Synapsys
